import Mathlib

/-
  Verification of the GlassNet Connection Discovery & Enrichment Pipeline.

  Shallow embedding of the relevant functions of
    src/monitors/network-monitor.js  (class NetworkMonitor) and
    the DNS resolution / process utilities module (class DNSResolver).

  External boundaries (the Node built-in net.isIP, the dns.reverse call and
  the process-table lookup) are modelled as explicit function parameters;
  everything else is translated directly from the JavaScript source.
  JavaScript falsiness of optional strings (undefined or the empty string)
  is modelled on Option String; timestamps are milliseconds as Nat.
-/

/-! ### Character-list string helpers (JS String.includes / startsWith / split) -/

/-- Boolean list-prefix test: does the pattern occur at the head of the list. -/
def takesPrefix : List Char → List Char → Bool
  | [], _ => true
  | _ :: _, [] => false
  | p :: ps, c :: cs => p == c && takesPrefix ps cs

/-- Does the pattern occur as a contiguous sublist anywhere; JS String.includes. -/
def hasSubList (pat : List Char) : List Char → Bool
  | [] => takesPrefix pat []
  | c :: cs => takesPrefix pat (c :: cs) || hasSubList pat cs

/-- JS s.includes(pat). -/
def strIncludes (s pat : String) : Bool := hasSubList pat.data s.data

/-- JS s.startsWith(pat). -/
def strStarts (s pat : String) : Bool := takesPrefix pat.data s.data

/-- Index of the first occurrence of a two-sided pattern, if any. -/
def findSub (pat : List Char) : List Char → Option Nat
  | [] => if takesPrefix pat [] then some 0 else none
  | c :: cs =>
    if takesPrefix pat (c :: cs) then some 0
    else (findSub pat cs).map (· + 1)

/-- Index of the last occurrence of a character, starting count at i. -/
def lastIdxAux (ch : Char) : List Char → Nat → Option Nat
  | [], _ => none
  | c :: cs, i =>
    match lastIdxAux ch cs (i + 1) with
    | some j => some j
    | none => if c == ch then some i else none

/-- JS s.lastIndexOf(ch). -/
def lastIdx (ch : Char) (l : List Char) : Option Nat := lastIdxAux ch l 0

/-- Value of the leading decimal digits; stops at the first non-digit. -/
def digitsVal : List Char → Nat → Nat
  | [], acc => acc
  | c :: cs, acc => if c.isDigit then digitsVal cs (acc * 10 + (c.toNat - 48)) else acc

/-- JS (parseInt(s) || 0) for the non-negative numerals this code feeds it:
a string with no leading digit gives NaN, which the || turns into 0, exactly
the result of reading zero leading digits. -/
def jsParseIntD (s : String) : Nat := digitsVal s.data 0

/-- JS ordering of (a || d) for an optional string a: the fallback d is used
when a is undefined or the empty string (both falsy). -/
def jsOrD : Option String → String → String
  | none, d => d
  | some s, d => if s == "" then d else s

/-- JS truthiness of an optional string. -/
def optTruthyS : Option String → Bool
  | none => false
  | some s => !(s == "")

/-- JS truthiness of an optional numeric pid (undefined and 0 are falsy;
a NaN pid from parseInt is modelled as none). -/
def optTruthyN : Option Nat → Bool
  | none => false
  | some n => !(n == 0)

/-! ### DNSResolver (dns-resolver module) -/

namespace DNSResolver

/-- DNSResolver.cacheTimeout = 5 * 60 * 1000 (5 minutes, ms). -/
def cacheTimeout : Nat := 5 * 60 * 1000

/-- One cached resolution: hostname null means a recorded failure. -/
structure CacheEntry where
  hostname : Option String
  timestamp : Nat
deriving Repr, DecidableEq

/-- The static cache, a JS Map from ip to entry (association list). -/
abbrev DnsCache := List (String × CacheEntry)

/-- JS Map.get. -/
def cacheGet : DnsCache → String → Option CacheEntry
  | [], _ => none
  | kv :: rest, k => if kv.1 == k then some kv.2 else cacheGet rest k

/-- JS Map.set: replace in place if the key is present, else append. -/
def cacheSet : DnsCache → String → CacheEntry → DnsCache
  | [], k, v => [(k, v)]
  | kv :: rest, k, v => if kv.1 == k then (k, v) :: rest else kv :: cacheSet rest k v

/-- DNSResolver.isLocalAddress, translated check by check from the source
regexes (each anchored at the start only). -/
def isLocalAddress (ip : String) : Bool :=
  if ip == "" then false
  else if strStarts ip "127." then true
  else if strStarts ip "10." then true
  else if (List.range 16).any (fun i => strStarts ip ("172." ++ Nat.repr (16 + i) ++ ".")) then true
  else if strStarts ip "192.168." then true
  else if strStarts ip "169.254." then true
  else if ip == "::1" then true
  else if strStarts ip "fe80:" then true
  else if strStarts ip "fc00:" || strStarts ip "fd00:" then true
  else false

/-- DNSResolver.getLocalHostname. -/
def getLocalHostname (ip : String) : String :=
  if ip == "127.0.0.1" || ip == "::1" then "localhost"
  else if ip == "0.0.0.0" || ip == "::" then "any"
  else if strStarts ip "169.254." then "link-local"
  else if isLocalAddress ip then "local"
  else ip

/-- The body of the try block around dnsReverse plus its catch: rev models
the external dns.reverse promise, none meaning it threw. Returns the
resolved value, the updated cache and the number of reverse lookups (1).
Every branch caches at timestamp now: a success caches the name, any
failure or unhelpful result caches null. -/
def doLookup (rev : String → Option (List String)) (ip : String) (now : Nat)
    (cache : DnsCache) : Option String × DnsCache × Nat :=
  match rev ip with
  | none => (none, cacheSet cache ip ⟨none, now⟩, 1)
  | some names =>
    match names.head? with
    | none => (none, cacheSet cache ip ⟨none, now⟩, 1)
    | some h =>
      if !(h == "") && !(h == ip) then (some h, cacheSet cache ip ⟨some h, now⟩, 1)
      else (none, cacheSet cache ip ⟨none, now⟩, 1)

/-- DNSResolver.resolveHostname. validIP models the truthiness of the Node
built-in net.isIP; rev models dns.reverse (none = it threw). The result is
the returned value (none = JS null), the cache after the call, and how many
reverse lookups were performed (0 or 1). The JS expression
(Date.now() - cached.timestamp < cacheTimeout) agrees with the Nat
truncated subtraction used here, since timestamps are never negative. -/
def resolveHostname (validIP : String → Bool) (rev : String → Option (List String))
    (ip : String) (now : Nat) (cache : DnsCache) : Option String × DnsCache × Nat :=
  if isLocalAddress ip then (some (getLocalHostname ip), cache, 0)
  else if !(validIP ip) then (some ip, cache, 0)
  else
    match cacheGet cache ip with
    | some e =>
      if now - e.timestamp < cacheTimeout then (e.hostname, cache, 0)
      else doLookup rev ip now cache
    | none => doLookup rev ip now cache

end DNSResolver

/-! ### NetworkMonitor (src/monitors/network-monitor.js) -/

namespace NetworkMonitor

/-- The five-minute dedup window, 5 * 60 * 1000 ms, from processConnections. -/
def dedupWindowMs : Nat := 5 * 60 * 1000

/-- A raw parsed socket tuple as pushed by the scan functions. Optional
fields model JS properties that a scanner may leave undefined. -/
structure Conn where
  protocol : String
  localAddress : String
  localPort : Nat
  remoteAddress : String
  remotePort : Nat
  state : String
  processId : Option Nat
  processName : Option String
  userName : Option String
  remoteHostname : Option String
deriving Repr, DecidableEq

/-- An emitted Connection Record: after the defaulting step processName and
userName are plain strings; remoteHostname stays optional (absence is
meaningful). -/
structure Record where
  protocol : String
  localAddress : String
  localPort : Nat
  remoteAddress : String
  remotePort : Nat
  state : String
  processId : Option Nat
  processName : String
  userName : String
  remoteHostname : Option String
deriving Repr, DecidableEq

/-- Result of the external process-table lookup ProcessUtils.getProcessByPid:
platform dependent, so each display field is optional. -/
structure ProcInfo where
  name : Option String
  command : Option String
  user : Option String
deriving Repr, DecidableEq

/-- NetworkMonitor.parseAddress. -/
def parseAddress (addressPort : String) : String × Nat :=
  if addressPort == "" || addressPort == "*:*" then ("*", 0)
  else
    match lastIdx ':' addressPort.data with
    | none => (addressPort, 0)
    | some i =>
      let address := String.mk (addressPort.data.take i)
      let port := jsParseIntD (String.mk (addressPort.data.drop (i + 1)))
      ((if address == "*" then "0.0.0.0" else address), port)

/-- Protocol and state of a parsed macOS lsof node. -/
structure ConnInfo where
  protocol : String
  localAddress : String
  localPort : Nat
  remoteAddress : String
  remotePort : Nat
  state : String
deriving Repr, DecidableEq

/-- Split of the node remainder against the optional trailer
(?:\s+\((.+?)\))?$ of the lsof regex: the lazy address group stops at the
first blank-then-open-paren whose parenthesised, non-empty content reaches
the end of the string. The \s+ is modelled as a single space, which is what
the scanner builds (protocol and node are single whitespace-split tokens
joined by one space). -/
def splitStateTrailer (rest : List Char) : List Char × Option (List Char) :=
  match findSub [' ', '('] rest with
  | none => (rest, none)
  | some i =>
    if rest.getLast? == some ')' && i + 4 ≤ rest.length then
      (rest.take i, some ((rest.drop (i + 2)).dropLast))
    else (rest, none)

/-- First occurrence split on the two-character arrow of lsof node strings. -/
def splitArrowFirst : List Char → Option (List Char × List Char)
  | [] => none
  | '-' :: '>' :: rest => some ([], rest)
  | c :: cs => (splitArrowFirst cs).map (fun p => (c :: p.1, p.2))

/-- JS const [local, remote] = addressPart.split(arrow): local is the text
before the first arrow, remote the text between the first and the second. -/
def jsArrowLocalRemote (s : List Char) : Option (List Char × List Char) :=
  match splitArrowFirst s with
  | none => none
  | some (l, rest) =>
    match splitArrowFirst rest with
    | none => some (l, rest)
    | some (r, _) => some (l, r)

/-- NetworkMonitor.parseMacOSConnection: the regex
^(TCP|UDP)\s+(.+?)(?:\s+\((.+?)\))?$ followed by the arrow / listening
branches of the source. -/
def parseMacOSConnection (node : String) : Option ConnInfo :=
  let cs := node.data
  let parsed : Option (String × List Char) :=
    if takesPrefix "TCP ".data cs then some ("tcp", cs.drop 4)
    else if takesPrefix "UDP ".data cs then some ("udp", cs.drop 4)
    else none
  match parsed with
  | none => none
  | some (protocol, rest) =>
    if rest.isEmpty then none
    else
      let (addressPart, stOpt) := splitStateTrailer rest
      let state := match stOpt with
        | some st => String.mk st
        | none => "UNKNOWN"
      match jsArrowLocalRemote addressPart with
      | some (l, r) =>
        let la := parseAddress (String.mk l)
        let ra := parseAddress (String.mk r)
        some ⟨protocol, la.1, la.2, ra.1, ra.2, state⟩
      | none =>
        let la := parseAddress (String.mk addressPart)
        some ⟨protocol, la.1, la.2, "*", 0, "LISTEN"⟩

/-- NetworkMonitor.isLoopbackConnection: substring containment of the three
patterns in either address. -/
def isLoopbackConnection (localAddr remoteAddr : String) : Bool :=
  ["127.", "::1", "localhost"].any
    (fun pattern => strIncludes localAddr pattern || strIncludes remoteAddr pattern)

/-- The dedup key template string of processConnections. -/
def dedupKey (c : Conn) : String :=
  c.protocol ++ ":" ++ c.localAddress ++ ":" ++ Nat.repr c.localPort ++ ":" ++
    c.remoteAddress ++ ":" ++ Nat.repr c.remotePort

/-- The lastConnections JS Map from dedup key to last-seen timestamp. -/
abbrev DedupMap := List (String × Nat)

/-- JS Map.has. -/
def mapHas (m : DedupMap) (k : String) : Bool := m.any (fun kv => kv.1 == k)

/-- JS Map.get. -/
def mapGet : DedupMap → String → Option Nat
  | [], _ => none
  | kv :: rest, k => if kv.1 == k then some kv.2 else mapGet rest k

/-- JS Map.set: replace in place if present, else append. -/
def mapSet : DedupMap → String → Nat → DedupMap
  | [], k, v => [(k, v)]
  | kv :: rest, k, v => if kv.1 == k then (k, v) :: rest else kv :: mapSet rest k v

/-- The processName a tuple carries after the enrichment branch of
processConnections: the lookup result is consulted only when the pid is
truthy and no name is present, and only a truthy lookup result overwrites. -/
def enrichPN (lookup : Nat → Option ProcInfo) (c : Conn) : Option String :=
  if optTruthyN c.processId && !(optTruthyS c.processName) then
    match c.processId with
    | some pid =>
      match lookup pid with
      | some pi => some (jsOrD pi.name (jsOrD pi.command "Unknown"))
      | none => c.processName
    | none => c.processName
  else c.processName

/-- The userName after the enrichment branch, symmetric to enrichPN. -/
def enrichUN (lookup : Nat → Option ProcInfo) (c : Conn) : Option String :=
  if optTruthyN c.processId && !(optTruthyS c.processName) then
    match c.processId with
    | some pid =>
      match lookup pid with
      | some pi => some (jsOrD pi.user "Unknown")
      | none => c.userName
    | none => c.userName
  else c.userName

/-- The pids handed to ProcessUtils.getProcessByPid while enriching one
tuple: exactly one call when the pid is truthy and no name is present,
whatever the lookup then returns. -/
def enrichCalls (c : Conn) : List Nat :=
  if optTruthyN c.processId && !(optTruthyS c.processName) then
    match c.processId with
    | some pid => [pid]
    | none => []
  else []

/-- The remoteHostname after the hostname branch of processConnections: set
only when resolution is enabled, the remote address is real, and the dns
result is truthy and differs from the raw address. -/
def enrichRH (dns : String → Option String) (resolveHostnames : Bool) (c : Conn) : Option String :=
  if resolveHostnames && !(c.remoteAddress == "") && !(c.remoteAddress == "*") then
    match dns c.remoteAddress with
    | some h => if !(h == "") && !(h == c.remoteAddress) then some h else c.remoteHostname
    | none => c.remoteHostname
  else c.remoteHostname

/-- The finished Connection Record for one surviving tuple: enrichment
followed by the sentinel defaulting lines of processConnections. -/
def enrich (lookup : Nat → Option ProcInfo) (dns : String → Option String)
    (resolveHostnames : Bool) (c : Conn) : Record where
  protocol := c.protocol
  localAddress := c.localAddress
  localPort := c.localPort
  remoteAddress := c.remoteAddress
  remotePort := c.remotePort
  state := c.state
  processId := c.processId
  processName := jsOrD (enrichPN lookup c) "Unknown"
  userName := jsOrD (enrichUN lookup c) "Unknown"
  remoteHostname := enrichRH dns resolveHostnames c

/-- The main loop of processConnections: dedup by Map.has, mark new keys
with now, enrich survivors. Returns the emitted records, the map before the
final cleanup, and the pid-lookup trace in call order. -/
def processLoop (lookup : Nat → Option ProcInfo) (dns : String → Option String)
    (resolveHostnames : Bool) (now : Nat) :
    DedupMap → List Conn → List Record × DedupMap × List Nat
  | m, [] => ([], m, [])
  | m, c :: rest =>
    if mapHas m (dedupKey c) then processLoop lookup dns resolveHostnames now m rest
    else
      let out := processLoop lookup dns resolveHostnames now (mapSet m (dedupKey c) now) rest
      (enrich lookup dns resolveHostnames c :: out.1, out.2.1, enrichCalls c ++ out.2.2)

/-- The cleanup at the end of processConnections: delete entries whose
timestamp is older than five minutes before now. Nat subtraction agrees
with the JS signed arithmetic because timestamps are non-negative. -/
def gcSweep (now : Nat) (m : DedupMap) : DedupMap :=
  m.filter (fun kv => !(kv.2 < now - dedupWindowMs))

/-- NetworkMonitor.processConnections: loop then cleanup. -/
def processConnections (lookup : Nat → Option ProcInfo) (dns : String → Option String)
    (resolveHostnames : Bool) (now : Nat) (m : DedupMap) (conns : List Conn) :
    List Record × DedupMap × List Nat :=
  let out := processLoop lookup dns resolveHostnames now m conns
  (out.1, gcSweep now out.2.1, out.2.2)

/-- The per-tuple filter of the macOS scan loop: keep a tuple when its
protocol is configured and it is not excluded as loopback. -/
def scanFilterConns (protocols : List String) (includeLoopback : Bool)
    (conns : List Conn) : List Conn :=
  conns.filter (fun c =>
    protocols.contains c.protocol &&
      (includeLoopback || !(isLoopbackConnection c.localAddress c.remoteAddress)))

/-- One scan cycle after parsing: the scan-loop filter followed by
processConnections. -/
def scanCycle (protocols : List String) (includeLoopback : Bool)
    (lookup : Nat → Option ProcInfo) (dns : String → Option String)
    (resolveHostnames : Bool) (now : Nat) (m : DedupMap) (conns : List Conn) :
    List Record × DedupMap × List Nat :=
  processConnections lookup dns resolveHostnames now m
    (scanFilterConns protocols includeLoopback conns)

/-- Reference description of the lookup trace: one getProcessByPid call per
tuple that survives dedup and carries a truthy pid with no name. -/
def survivorCalls (now : Nat) : DedupMap → List Conn → List Nat
  | _, [] => []
  | m, c :: rest =>
    if mapHas m (dedupKey c) then survivorCalls now m rest
    else enrichCalls c ++ survivorCalls now (mapSet m (dedupKey c) now) rest

end NetworkMonitor

/-! ### Concrete sample data for the scenario theorems -/

namespace NetworkMonitor

/-- A process lookup that always misses. -/
def lookupNone : Nat → Option ProcInfo := fun _ => none

/-- A process lookup that always answers with a fixed process. -/
def lookupFixed : Nat → Option ProcInfo := fun _ => some ⟨some "x", none, some "u"⟩

/-- A dns oracle that always fails. -/
def dnsNone : String → Option String := fun _ => none

/-- A sample socket tuple. -/
def connA : Conn := ⟨"t", "a", 1, "b", 2, "E", none, none, none, none⟩

/-- A tuple owned by pid 7. -/
def connPid1 : Conn := ⟨"t", "a", 1, "b", 2, "E", some 7, none, none, none⟩

/-- A second tuple owned by the same pid 7 on another port. -/
def connPid2 : Conn := ⟨"t", "a", 3, "b", 2, "E", some 7, none, none, none⟩

/-- The tuple of the Dialect B scenario node. -/
def connB : Conn :=
  ⟨"tcp", "192.168.1.100", 53124, "142.250.185.110", 443, "ESTABLISHED", none, none, none, none⟩

/-- A tuple whose local address sits in the 10.0.0.0/8 private range. -/
def connTen : Conn :=
  ⟨"tcp", "10.0.0.5", 40000, "93.184.216.34", 443, "ESTABLISHED", none, none, none, none⟩

/-- A tuple with public addresses on both sides. -/
def connPub : Conn :=
  ⟨"tcp", "203.0.113.9", 40000, "93.184.216.34", 443, "ESTABLISHED", none, none, none, none⟩

end NetworkMonitor

/-! ### Helper lemmas -/

theorem takesPrefix_iff (p : List Char) : ∀ s, takesPrefix p s = true ↔ ∃ t, s = p ++ t := by
  induction p with
  | nil => intro s; simp [takesPrefix]
  | cons a ps ih =>
    intro s
    cases s with
    | nil => simp [takesPrefix]
    | cons c cs =>
      simp only [takesPrefix, Bool.and_eq_true, beq_iff_eq, ih, List.cons_append]
      constructor
      · rintro ⟨rfl, t, rfl⟩
        exact ⟨t, rfl⟩
      · rintro ⟨t, h⟩
        injection h with h1 h2
        exact ⟨h1.symm, t, h2⟩

theorem hasSubList_iff (p : List Char) : ∀ s, hasSubList p s = true ↔ ∃ u v, s = u ++ p ++ v := by
  intro s
  induction s with
  | nil =>
    simp only [hasSubList, takesPrefix_iff]
    constructor
    · rintro ⟨t, h⟩
      exact ⟨[], t, by simpa using h⟩
    · rintro ⟨u, v, h⟩
      refine ⟨v, ?_⟩
      rcases List.append_eq_nil.mp (List.append_eq_nil.mp h.symm).1 with ⟨rfl, rfl⟩
      simpa using h
  | cons c cs ih =>
    simp only [hasSubList, Bool.or_eq_true, takesPrefix_iff, ih]
    constructor
    · rintro (⟨t, h⟩ | ⟨u, v, h⟩)
      · exact ⟨[], t, by simpa using h⟩
      · exact ⟨c :: u, v, by simp [h]⟩
    · rintro ⟨u, v, h⟩
      cases u with
      | nil => exact Or.inl ⟨v, by simpa using h⟩
      | cons a u =>
        injection h with h1 h2
        exact Or.inr ⟨u, v, h2⟩

theorem jsOrD_ne_empty (a : Option String) (d : String) (hd : d ≠ "") : jsOrD a d ≠ "" := by
  cases a with
  | none => simpa [jsOrD] using hd
  | some s =>
    by_cases h : s = ""
    · simpa [jsOrD, h] using hd
    · simp only [jsOrD, beq_iff_eq, if_neg h]
      exact h

namespace NetworkMonitor

theorem mapHas_cons (kv : String × Nat) (rest : DedupMap) (k : String) :
    mapHas (kv :: rest) k = (kv.1 == k || mapHas rest k) := rfl

theorem mapSet_cons (kv : String × Nat) (rest : DedupMap) (k : String) (v : Nat) :
    mapSet (kv :: rest) k v = if kv.1 == k then (k, v) :: rest else kv :: mapSet rest k v := rfl

theorem mapGet_cons (kv : String × Nat) (rest : DedupMap) (k : String) :
    mapGet (kv :: rest) k = if kv.1 == k then some kv.2 else mapGet rest k := rfl

theorem mapHas_mapSet_self (m : DedupMap) (k : String) (v : Nat) :
    mapHas (mapSet m k v) k = true := by
  induction m with
  | nil => simp [mapSet, mapHas]
  | cons kv rest ih =>
    rw [mapSet_cons]
    by_cases hk : (kv.1 == k) = true
    · rw [if_pos hk, mapHas_cons]
      simp
    · rw [if_neg hk, mapHas_cons, ih]
      simp

theorem mapHas_mapSet_of (m : DedupMap) (k' k : String) (v : Nat)
    (h : mapHas m k' = true) : mapHas (mapSet m k v) k' = true := by
  induction m with
  | nil => simp [mapHas] at h
  | cons kv rest ih =>
    rw [mapHas_cons, Bool.or_eq_true] at h
    rw [mapSet_cons]
    by_cases hk : (kv.1 == k) = true
    · rw [if_pos hk, mapHas_cons]
      rcases h with h | h
      · have he : kv.1 = k := by simpa using hk
        rw [← he]
        simp [h]
      · simp [h]
    · rw [if_neg hk, mapHas_cons]
      rcases h with h | h
      · simp [h]
      · simp [ih h]

theorem mapSet_mem (m : DedupMap) (k : String) (v : Nat) :
    ∀ kv ∈ mapSet m k v, kv ∈ m ∨ kv = (k, v) := by
  induction m with
  | nil =>
    intro kv hkv
    rw [show mapSet [] k v = [(k, v)] from rfl] at hkv
    simp at hkv
    simp [hkv]
  | cons kv0 rest ih =>
    intro kv hkv
    rw [mapSet_cons] at hkv
    by_cases hk : (kv0.1 == k) = true
    · rw [if_pos hk] at hkv
      rcases List.mem_cons.mp hkv with rfl | hkv
      · exact Or.inr rfl
      · exact Or.inl (List.mem_cons_of_mem _ hkv)
    · rw [if_neg hk] at hkv
      rcases List.mem_cons.mp hkv with rfl | hkv
      · exact Or.inl (List.mem_cons_self _ _)
      · rcases ih kv hkv with h | h
        · exact Or.inl (List.mem_cons_of_mem _ h)
        · exact Or.inr h

theorem mapGet_mapSet_self (m : DedupMap) (k : String) (v : Nat) :
    mapGet (mapSet m k v) k = some v := by
  induction m with
  | nil => simp [mapSet, mapGet]
  | cons kv rest ih =>
    rw [mapSet_cons]
    by_cases hk : (kv.1 == k) = true
    · rw [if_pos hk, mapGet_cons]
      simp
    · rw [if_neg hk, mapGet_cons, if_neg hk, ih]

theorem mapGet_gcSweep_of (now : Nat) (m : DedupMap) (k : String) (ts : Nat)
    (h : mapGet m k = some ts) (hts : ¬ ts < now - dedupWindowMs) :
    mapGet (gcSweep now m) k = some ts := by
  induction m with
  | nil => simp [mapGet] at h
  | cons kv rest ih =>
    rw [mapGet_cons] at h
    by_cases hk : (kv.1 == k) = true
    · rw [if_pos hk] at h
      rw [Option.some_inj] at h
      subst h
      simp [gcSweep, List.filter_cons, hts, mapGet_cons, hk]
    · rw [if_neg hk] at h
      have htail := ih h
      by_cases hp : kv.2 < now - dedupWindowMs
      · simpa [gcSweep, List.filter_cons, hp] using htail
      · simpa [gcSweep, List.filter_cons, hp, mapGet_cons, hk] using htail

end NetworkMonitor

namespace NetworkMonitor

theorem gcSweep_eq_self (now : Nat) (m : DedupMap)
    (h : ∀ kv ∈ m, ¬ kv.2 < now - dedupWindowMs) : gcSweep now m = m := by
  induction m with
  | nil => rfl
  | cons kv rest ih =>
    have hkv := h kv (List.mem_cons_self _ _)
    have htail := ih (fun kv2 h2 => h kv2 (List.mem_cons_of_mem _ h2))
    unfold gcSweep at htail ⊢
    rw [List.filter_cons, if_pos (show (!decide (kv.2 < now - dedupWindowMs)) = true by simpa using hkv), htail]

theorem processLoop_out_mem (lookup : Nat → Option ProcInfo) (dns : String → Option String)
    (rh : Bool) (now : Nat) :
    ∀ (conns : List Conn) (m : DedupMap) (r : Record),
      r ∈ (processLoop lookup dns rh now m conns).1 →
      ∃ c ∈ conns, r = enrich lookup dns rh c := by
  intro conns
  induction conns with
  | nil =>
    intro m r hr
    simp [processLoop] at hr
  | cons c rest ih =>
    intro m r hr
    by_cases h : mapHas m (dedupKey c) = true
    · rw [show processLoop lookup dns rh now m (c :: rest) =
          processLoop lookup dns rh now m rest by simp [processLoop, h]] at hr
      obtain ⟨c2, hc2, hr2⟩ := ih m r hr
      exact ⟨c2, List.mem_cons_of_mem _ hc2, hr2⟩
    · rw [show processLoop lookup dns rh now m (c :: rest) =
          (enrich lookup dns rh c ::
            (processLoop lookup dns rh now (mapSet m (dedupKey c) now) rest).1,
           (processLoop lookup dns rh now (mapSet m (dedupKey c) now) rest).2.1,
           enrichCalls c ++
            (processLoop lookup dns rh now (mapSet m (dedupKey c) now) rest).2.2)
          by simp [processLoop, h]] at hr
      rcases List.mem_cons.mp hr with rfl | hr
      · exact ⟨c, List.mem_cons_self _ _, rfl⟩
      · obtain ⟨c2, hc2, hr2⟩ := ih (mapSet m (dedupKey c) now) r hr
        exact ⟨c2, List.mem_cons_of_mem _ hc2, hr2⟩

theorem processLoop_has_mono (lookup : Nat → Option ProcInfo) (dns : String → Option String)
    (rh : Bool) (now : Nat) :
    ∀ (conns : List Conn) (m : DedupMap) (k : String), mapHas m k = true →
      mapHas (processLoop lookup dns rh now m conns).2.1 k = true := by
  intro conns
  induction conns with
  | nil => intro m k hk; simpa [processLoop] using hk
  | cons c rest ih =>
    intro m k hk
    by_cases h : mapHas m (dedupKey c) = true
    · simpa [processLoop, h] using ih m k hk
    · simpa [processLoop, h] using ih (mapSet m (dedupKey c) now) k (mapHas_mapSet_of m k (dedupKey c) now hk)

theorem processLoop_adds (lookup : Nat → Option ProcInfo) (dns : String → Option String)
    (rh : Bool) (now : Nat) :
    ∀ (conns : List Conn) (m : DedupMap) (c : Conn), c ∈ conns →
      mapHas (processLoop lookup dns rh now m conns).2.1 (dedupKey c) = true := by
  intro conns
  induction conns with
  | nil => intro m c hc; simp at hc
  | cons c0 rest ih =>
    intro m c hc
    rcases List.mem_cons.mp hc with rfl | hc
    · by_cases h : mapHas m (dedupKey c) = true
      · simpa [processLoop, h] using processLoop_has_mono lookup dns rh now rest m (dedupKey c) h
      · simpa [processLoop, h] using
          processLoop_has_mono lookup dns rh now rest (mapSet m (dedupKey c) now) (dedupKey c)
            (mapHas_mapSet_self m (dedupKey c) now)
    · by_cases h : mapHas m (dedupKey c0) = true
      · simpa [processLoop, h] using ih m c hc
      · simpa [processLoop, h] using ih (mapSet m (dedupKey c0) now) c hc

theorem processLoop_entries (lookup : Nat → Option ProcInfo) (dns : String → Option String)
    (rh : Bool) (now : Nat) (b : Nat) (hnow : ¬ now < b) :
    ∀ (conns : List Conn) (m : DedupMap), (∀ kv ∈ m, ¬ kv.2 < b) →
      ∀ kv ∈ (processLoop lookup dns rh now m conns).2.1, ¬ kv.2 < b := by
  intro conns
  induction conns with
  | nil => intro m hm kv hkv; exact hm kv (by simpa [processLoop] using hkv)
  | cons c rest ih =>
    intro m hm kv hkv
    by_cases h : mapHas m (dedupKey c) = true
    · exact ih m hm kv (by simpa [processLoop, h] using hkv)
    · refine ih (mapSet m (dedupKey c) now) ?_ kv (by simpa [processLoop, h] using hkv)
      intro kv2 hkv2
      rcases mapSet_mem m (dedupKey c) now kv2 hkv2 with h2 | h2
      · exact hm kv2 h2
      · rw [h2]
        exact hnow

theorem processLoop_allHas_nil (lookup : Nat → Option ProcInfo) (dns : String → Option String)
    (rh : Bool) (now : Nat) :
    ∀ (conns : List Conn) (m : DedupMap), (∀ c ∈ conns, mapHas m (dedupKey c) = true) →
      (processLoop lookup dns rh now m conns).1 = [] := by
  intro conns
  induction conns with
  | nil => intro m _; rfl
  | cons c rest ih =>
    intro m hm
    have hc := hm c (List.mem_cons_self _ _)
    simpa [processLoop, hc] using ih m (fun c2 h2 => hm c2 (List.mem_cons_of_mem _ h2))

end NetworkMonitor

namespace DNSResolver

theorem cacheGet_cacheSet_self (c : DnsCache) (k : String) (e : CacheEntry) :
    cacheGet (cacheSet c k e) k = some e := by
  induction c with
  | nil => simp [cacheSet, cacheGet]
  | cons kv rest ih =>
    by_cases h : (kv.1 == k) = true
    · rw [show cacheSet (kv :: rest) k e = (k, e) :: rest from by simp [cacheSet, h]]
      simp [cacheGet]
    · rw [show cacheSet (kv :: rest) k e = kv :: cacheSet rest k e from by simp [cacheSet, h]]
      rw [show cacheGet (kv :: cacheSet rest k e) k =
            if kv.1 == k then some kv.2 else cacheGet (cacheSet rest k e) k from rfl]
      rw [if_neg (by simpa using h), ih]

theorem doLookup_spec (rev : String → Option (List String)) (ip : String) (now : Nat)
    (cache : DnsCache) :
    ∃ h, doLookup rev ip now cache = (h, cacheSet cache ip ⟨h, now⟩, 1) := by
  cases hrev : rev ip with
  | none => exact ⟨none, by simp [doLookup, hrev]⟩
  | some names =>
    cases hh : names.head? with
    | none => exact ⟨none, by simp [doLookup, hrev, hh]⟩
    | some h =>
      by_cases hcond : (!(h == "") && !(h == ip)) = true
      · exact ⟨some h, by simp only [doLookup, hrev, hh, if_pos hcond]⟩
      · exact ⟨none, by simp only [doLookup, hrev, hh, if_neg hcond]⟩

end DNSResolver

/-! ### Claim theorems -/

open NetworkMonitor DNSResolver

/-- C1: every Connection Record emitted by the enrichment step
(processConnections) has a non-empty processName and a non-empty userName:
for every surviving tuple, even when the process lookup fails or returns
nothing, each field is the sentinel "Unknown" or a non-empty looked-up
value, never unset or empty. -/
theorem processConnections_sentinel_totality
    (lookup : Nat → Option ProcInfo) (dns : String → Option String)
    (rh : Bool) (now : Nat) (m : DedupMap) (conns : List Conn) (r : Record)
    (hr : r ∈ (processConnections lookup dns rh now m conns).1) :
    r.processName ≠ "" ∧ r.userName ≠ "" := by
  obtain ⟨c, _, rfl⟩ := processLoop_out_mem lookup dns rh now conns m r hr
  exact ⟨jsOrD_ne_empty _ _ (by decide), jsOrD_ne_empty _ _ (by decide)⟩

/-- Witness for C1 at a concrete cycle that emits one record. -/
theorem processConnections_sentinel_totality_witness :
    (enrich lookupNone dnsNone false connA).processName ≠ "" ∧
    (enrich lookupNone dnsNone false connA).userName ≠ "" :=
  processConnections_sentinel_totality lookupNone dnsNone false 0 [] [connA]
    (enrich lookupNone dnsNone false connA) (by decide)

/-- C2 fails on the code: after a cycle at time 0 records the tuple, a
second cycle at time 300001 finds the prior record with last-seen time 0
already older than the five-minute window, yet the tuple is dropped (empty
output) instead of being emitted with now recorded — the emit decision
tests only Map.has, and stale entries survive until the end-of-cycle
sweep of the following run. -/
theorem dedup_window_counterexample :
    mapGet (processConnections lookupNone dnsNone false 0 [] [connA]).2.1 (dedupKey connA) =
      some 0 ∧
    dedupWindowMs < 300001 - 0 ∧
    (processConnections lookupNone dnsNone false 300001
      (processConnections lookupNone dnsNone false 0 [] [connA]).2.1 [connA]).1 = [] := by
  decide

/-- C2 (amended): the dedup step emits a tuple and records now as the last
seen time of its key exactly when the map holds no prior record for the key
at all; any prior record, inside the window or past it, makes the step drop
the tuple and leave the loop map unchanged (stale entries disappear only in
the end-of-cycle sweep, not at the emit decision). -/
theorem dedup_decision_amended (lookup : Nat → Option ProcInfo)
    (dns : String → Option String) (rh : Bool) (now : Nat) (m : DedupMap) (c : Conn) :
    (mapHas m (dedupKey c) = false →
      (processConnections lookup dns rh now m [c]).1 = [enrich lookup dns rh c] ∧
      mapGet (processConnections lookup dns rh now m [c]).2.1 (dedupKey c) = some now) ∧
    (mapHas m (dedupKey c) = true →
      (processConnections lookup dns rh now m [c]).1 = [] ∧
      (processLoop lookup dns rh now m [c]).2.1 = m) := by
  constructor
  · intro h
    constructor
    · simp [processConnections, processLoop, h]
    · have h1 : (processConnections lookup dns rh now m [c]).2.1 =
          gcSweep now (mapSet m (dedupKey c) now) := by
        simp [processConnections, processLoop, h]
      rw [h1]
      exact mapGet_gcSweep_of now _ _ now (mapGet_mapSet_self m _ now)
        (Nat.not_lt.mpr (Nat.sub_le _ _))
  · intro h
    constructor
    · simp [processConnections, processLoop, h]
    · simp [processLoop, h]

/-- Witness for the amended C2 at a fresh map. -/
theorem dedup_decision_amended_witness :
    (processConnections lookupNone dnsNone false 0 [] [connA]).1 =
      [enrich lookupNone dnsNone false connA] ∧
    mapGet (processConnections lookupNone dnsNone false 0 [] [connA]).2.1 (dedupKey connA) =
      some 0 :=
  (dedup_decision_amended lookupNone dnsNone false 0 [] connA).1 (by decide)

/-- C3 fails on the code: from a fresh monitor scanning the same single
tuple at times 0, 300001 and 310001, the cycles at 300001 and 310001 are
two consecutive runs of the identical list only 10 seconds apart (well
inside the window), yet the second of them emits the tuple again: the
stale entry was dropped-then-purged by the 300001 cycle. -/
theorem repeated_scan_counterexample :
    10000 < dedupWindowMs ∧
    (processConnections lookupNone dnsNone false 300001
      (processConnections lookupNone dnsNone false 0 [] [connA]).2.1 [connA]).1 = [] ∧
    (processConnections lookupNone dnsNone false 310001
      (processConnections lookupNone dnsNone false 300001
        (processConnections lookupNone dnsNone false 0 [] [connA]).2.1 [connA]).2.1
      [connA]).1.length = 1 := by
  decide

/-- C3 (amended): feeding the identical list twice in succession yields an
empty second batch provided every entry held by the dedup map when the
first run starts is still inside the window of the first run (in
particular from a fresh map); without that proviso a tuple whose stale
entry is purged by the first run can be re-emitted by the second. -/
theorem repeated_scan_amended (lookup : Nat → Option ProcInfo)
    (dns : String → Option String) (rh : Bool) (t1 t2 : Nat) (m : DedupMap)
    (conns : List Conn)
    (hm : ∀ kv ∈ m, ¬ kv.2 < t1 - dedupWindowMs)
    (_h12 : t1 ≤ t2) (_hwin : t2 - t1 < dedupWindowMs) :
    (processConnections lookup dns rh t2
      (processConnections lookup dns rh t1 m conns).2.1 conns).1 = [] := by
  have hmap : (processConnections lookup dns rh t1 m conns).2.1 =
      (processLoop lookup dns rh t1 m conns).2.1 := by
    show gcSweep t1 (processLoop lookup dns rh t1 m conns).2.1 = _
    exact gcSweep_eq_self t1 _ (processLoop_entries lookup dns rh t1 (t1 - dedupWindowMs)
      (Nat.not_lt.mpr (Nat.sub_le _ _)) conns m hm)
  show (processLoop lookup dns rh t2
      (processConnections lookup dns rh t1 m conns).2.1 conns).1 = []
  rw [hmap]
  exact processLoop_allHas_nil lookup dns rh t2 conns _
    (fun c hc => processLoop_adds lookup dns rh t1 conns m c hc)

/-- Witness for the amended C3: two cycles 10 seconds apart from a fresh
map give an empty second batch. -/
theorem repeated_scan_amended_witness :
    (processConnections lookupNone dnsNone false 10000
      (processConnections lookupNone dnsNone false 0 [] [connA]).2.1 [connA]).1 = [] :=
  repeated_scan_amended lookupNone dnsNone false 0 10000 [] [connA]
    (by simp) (by decide) (by decide)

/-- C4 fails on the code: with include-loopback disabled, a connection
whose local address 10.0.0.5 lies in the 10.0.0.0/8 private range (the
classifier of the repository, isLocalAddress, accepts it) passes the
substring-based loopback filter and is emitted by the scan cycle. -/
theorem loopback_filter_counterexample :
    isLocalAddress "10.0.0.5" = true ∧ strStarts "10.0.0.5" "10." = true ∧
    scanFilterConns ["tcp"] false [connTen] = [connTen] ∧
    ((scanCycle ["tcp"] false lookupNone dnsNone false 0 [] [connTen]).1.map
      Record.localAddress) = ["10.0.0.5"] := by
  decide

/-- C4 (amended): with include-loopback disabled, the scan cycle never
emits a record an address of which contains "127.", "::1" or "localhost"
as a substring (isLoopbackConnection is false of every emitted record);
addresses lying only in the other private ranges (10/8, 172.16/12,
192.168/16, 169.254/16, fe80::/10, fc00::/7) are not excluded. -/
theorem scanCycle_loopback_amended (protocols : List String)
    (lookup : Nat → Option ProcInfo) (dns : String → Option String)
    (rh : Bool) (now : Nat) (m : DedupMap) (conns : List Conn) (r : Record)
    (hr : r ∈ (scanCycle protocols false lookup dns rh now m conns).1) :
    isLoopbackConnection r.localAddress r.remoteAddress = false := by
  obtain ⟨c, hc, rfl⟩ := processLoop_out_mem lookup dns rh now
    (scanFilterConns protocols false conns) m r hr
  have hfilter := List.of_mem_filter hc
  simp only [Bool.false_or, Bool.and_eq_true, Bool.not_eq_true'] at hfilter
  exact hfilter.2

/-- Witness for the amended C4: a public connection survives the cycle and
indeed fails the substring test. -/
theorem scanCycle_loopback_amended_witness :
    isLoopbackConnection (enrich lookupNone dnsNone false connPub).localAddress
      (enrich lookupNone dnsNone false connPub).remoteAddress = false :=
  scanCycle_loopback_amended ["tcp"] lookupNone dnsNone false 0 [] [connPub]
    (enrich lookupNone dnsNone false connPub) (by decide)

/-- C5: the Dialect B node parses to the claimed tuple (protocol tcp, local
192.168.1.100:53124, remote 142.250.185.110:443, state ESTABLISHED); with
include-loopback disabled it passes the filter, and one cycle with hostname
resolution disabled emits exactly one Connection Record with those fields
and with remoteHostname absent (none, as distinct from the empty string). -/
theorem dialectB_scenario :
    parseMacOSConnection "TCP 192.168.1.100:53124->142.250.185.110:443 (ESTABLISHED)" =
      some ⟨"tcp", "192.168.1.100", 53124, "142.250.185.110", 443, "ESTABLISHED"⟩ ∧
    scanFilterConns ["tcp"] false [connB] = [connB] ∧
    (scanCycle ["tcp"] false lookupNone dnsNone false 0 [] [connB]).1 =
      [⟨"tcp", "192.168.1.100", 53124, "142.250.185.110", 443, "ESTABLISHED",
        none, "Unknown", "Unknown", none⟩] := by
  decide

/-- C9 fails on the code: two distinct surviving tuples owned by the same
pid 7 produce two getProcessByPid invocations in one batch — the lookup is
per socket, with no per-pid memoization. -/
theorem pid_lookup_counterexample :
    connPid1.processId = some 7 ∧ connPid2.processId = some 7 ∧ connPid1 ≠ connPid2 ∧
    (processConnections lookupFixed dnsNone false 0 [] [connPid1, connPid2]).2.2 = [7, 7] := by
  decide

/-- C9 (amended): within one batch the process-table lookup is invoked
exactly once per surviving socket tuple that carries a truthy pid and no
process name — not once per distinct pid, so tuples sharing a pid each
trigger their own external invocation. -/
theorem pid_lookup_per_socket_amended (lookup : Nat → Option ProcInfo)
    (dns : String → Option String) (rh : Bool) (now : Nat) (m : DedupMap)
    (conns : List Conn) :
    (processConnections lookup dns rh now m conns).2.2 = survivorCalls now m conns := by
  show (processLoop lookup dns rh now m conns).2.2 = survivorCalls now m conns
  induction conns generalizing m with
  | nil => rfl
  | cons c rest ih =>
    by_cases h : mapHas m (dedupKey c) = true
    · simpa [processLoop, survivorCalls, h] using ih m
    · simpa [processLoop, survivorCalls, h] using ih (mapSet m (dedupKey c) now)

/-- C10 fails in its universal part: 10.127.0.1 lies in the 10.0.0.0/8
private range (and not in 127.0.0.0/8 — it does not start with the 127.
prefix), yet isLoopbackConnection is true because the substring test finds
"127." in the middle of the address. -/
theorem loopback_substring_counterexample :
    strStarts "10.127.0.1" "10." = true ∧ isLocalAddress "10.127.0.1" = true ∧
    strStarts "10.127.0.1" "127." = false ∧
    isLoopbackConnection "10.127.0.1" "9.9.9.9" = true := by
  decide

/-- C10 (amended): isLoopbackConnection is true exactly when the local or
the remote address contains "127.", "::1" or "localhost" as a contiguous
substring; hence it is true for some addresses outside every private range
(8.127.1.1) and also for some addresses inside the other private ranges
(fe80::1 matches the ::1 pattern), while addresses of those ranges with no
such substring (10.0.0.5, 172.16.0.1, 192.168.1.9, 169.254.7.7, fc00::5,
fd00::6) give false. -/
theorem isLoopback_substring_amended :
    (∀ l r : String, isLoopbackConnection l r = true ↔
      ((∃ u v, l.data = u ++ "127.".data ++ v) ∨ (∃ u v, r.data = u ++ "127.".data ++ v) ∨
       (∃ u v, l.data = u ++ "::1".data ++ v) ∨ (∃ u v, r.data = u ++ "::1".data ++ v) ∨
       (∃ u v, l.data = u ++ "localhost".data ++ v) ∨
       (∃ u v, r.data = u ++ "localhost".data ++ v))) ∧
    isLoopbackConnection "8.127.1.1" "9.9.9.9" = true ∧
    isLocalAddress "8.127.1.1" = false ∧
    isLoopbackConnection "fe80::1" "9.9.9.9" = true ∧
    isLocalAddress "fe80::1" = true ∧
    isLoopbackConnection "10.0.0.5" "172.16.0.1" = false ∧
    isLoopbackConnection "192.168.1.9" "169.254.7.7" = false ∧
    isLoopbackConnection "fc00::5" "fd00::6" = false := by
  refine ⟨?_, by decide, by decide, by decide, by decide, by decide, by decide, by decide⟩
  intro l r
  simp only [isLoopbackConnection, List.any_cons, List.any_nil, Bool.or_false,
    Bool.or_eq_true, strIncludes, hasSubList_iff]
  aesop

/-- C6: for a non-local, syntactically valid ip, two resolveHostname calls
within the five-minute TTL perform at most one reverse lookup in total: a
present non-expired cache entry — a hostname or a recorded null — is
returned immediately without a lookup. -/
theorem resolve_cache_single_lookup (validIP : String → Bool)
    (rev : String → Option (List String)) (ip : String) (t1 t2 : Nat) (c0 : DnsCache)
    (hLocal : isLocalAddress ip = false) (hValid : validIP ip = true)
    (_h12 : t1 ≤ t2) (hTTL : t2 - t1 < cacheTimeout) :
    (resolveHostname validIP rev ip t1 c0).2.2 +
      (resolveHostname validIP rev ip t2 (resolveHostname validIP rev ip t1 c0).2.1).2.2 ≤ 1 := by
  have hres : ∀ (now : Nat) (cache : DnsCache), resolveHostname validIP rev ip now cache =
      (match cacheGet cache ip with
       | some e =>
         if now - e.timestamp < cacheTimeout then (e.hostname, cache, 0)
         else doLookup rev ip now cache
       | none => doLookup rev ip now cache) := by
    intro now cache
    simp [resolveHostname, hLocal, hValid]
  have hmiss : ∀ (cache : DnsCache), (doLookup rev ip t1 cache).2.2 +
      (resolveHostname validIP rev ip t2 (doLookup rev ip t1 cache).2.1).2.2 ≤ 1 := by
    intro cache
    obtain ⟨h, hdl⟩ := doLookup_spec rev ip t1 cache
    rw [hdl, hres t2]
    simp only [cacheGet_cacheSet_self]
    rw [if_pos (show t2 - (⟨h, t1⟩ : CacheEntry).timestamp < cacheTimeout from hTTL)]
    simp
  rw [hres t1 c0]
  cases hc : cacheGet c0 ip with
  | none =>
    simp only [hc]
    exact hmiss c0
  | some e =>
    simp only [hc]
    by_cases hfresh : t1 - e.timestamp < cacheTimeout
    · rw [if_pos hfresh]
      show 0 + (resolveHostname validIP rev ip t2 c0).2.2 ≤ 1
      rw [hres t2 c0]
      simp only [hc]
      by_cases hfresh2 : t2 - e.timestamp < cacheTimeout
      · rw [if_pos hfresh2]
        simp
      · rw [if_neg hfresh2]
        obtain ⟨h, hdl⟩ := doLookup_spec rev ip t2 c0
        rw [hdl]
        exact Nat.le_refl 1
    · rw [if_neg hfresh]
      exact hmiss c0

/-- Witness for C6 at a concrete public ip and fresh cache. -/
theorem resolve_cache_single_lookup_witness :
    (resolveHostname (fun _ => true) (fun _ => some ["dns.google"]) "8.8.8.8" 0 []).2.2 +
      (resolveHostname (fun _ => true) (fun _ => some ["dns.google"]) "8.8.8.8" 1000
        (resolveHostname (fun _ => true) (fun _ => some ["dns.google"]) "8.8.8.8" 0 []).2.1).2.2
      ≤ 1 :=
  resolve_cache_single_lookup (fun _ => true) (fun _ => some ["dns.google"]) "8.8.8.8" 0 1000 []
    (by decide) rfl (by decide) (by decide)

/-- C7 fails at one boundary: the reverse lookup can resolve with a first
name that differs from the input ip yet is the empty string; the claim then
requires that name to be cached and returned, but the code treats the falsy
name as unhelpful and returns null, caching the failure. -/
theorem resolve_empty_name_counterexample :
    isLocalAddress "8.8.8.8" = false ∧ ("" : String) ≠ "8.8.8.8" ∧
    (resolveHostname (fun _ => true) (fun _ => some [""]) "8.8.8.8" 0 []).1 = none ∧
    cacheGet (resolveHostname (fun _ => true) (fun _ => some [""]) "8.8.8.8" 0 []).2.1
      "8.8.8.8" = some ⟨none, 0⟩ := by
  decide

/-- C7 (amended): on a cache miss for a non-local valid ip, resolveHostname
returns null and caches the failure at timestamp now (under the same
cacheTimeout TTL as a success) whenever the lookup throws, returns no
names, echoes the ip back, or yields an empty first name; a non-empty
first name that differs from the ip is cached at now and returned. -/
theorem resolve_lookup_outcome_amended (validIP : String → Bool)
    (rev : String → Option (List String)) (ip : String) (now : Nat) (cache : DnsCache)
    (hLocal : isLocalAddress ip = false) (hValid : validIP ip = true)
    (hMiss : ∀ e, cacheGet cache ip = some e → cacheTimeout ≤ now - e.timestamp) :
    ((rev ip = none ∨ rev ip = some [] ∨ (∃ ns, rev ip = some (ip :: ns)) ∨
        (∃ ns, rev ip = some ("" :: ns))) →
      resolveHostname validIP rev ip now cache = (none, cacheSet cache ip ⟨none, now⟩, 1)) ∧
    (∀ n ns, rev ip = some (n :: ns) → n ≠ "" → n ≠ ip →
      resolveHostname validIP rev ip now cache = (some n, cacheSet cache ip ⟨some n, now⟩, 1)) := by
  have hred : resolveHostname validIP rev ip now cache = doLookup rev ip now cache := by
    cases hc : cacheGet cache ip with
    | none => simp [resolveHostname, hLocal, hValid, hc]
    | some e => simp [resolveHostname, hLocal, hValid, hc, Nat.not_lt.mpr (hMiss e hc)]
  constructor
  · intro hfail
    rw [hred]
    rcases hfail with h | h | ⟨ns, h⟩ | ⟨ns, h⟩ <;> simp [doLookup, h]
  · intro n ns h hne hnip
    rw [hred]
    simp [doLookup, h, hne, hnip]

/-- Witness for the amended C7: a successful lookup is cached and returned. -/
theorem resolve_lookup_outcome_amended_witness :
    resolveHostname (fun _ => true) (fun _ => some ["dns.google"]) "8.8.8.8" 0 [] =
      (some "dns.google", [("8.8.8.8", ⟨some "dns.google", 0⟩)], 1) :=
  (resolve_lookup_outcome_amended (fun _ => true) (fun _ => some ["dns.google"]) "8.8.8.8" 0 []
    (by decide) rfl (fun e he => Option.noConfusion he)).2 "dns.google" [] rfl
    (by decide) (by decide)

/-- C8 fails as stated: the source tests isLocalAddress before ip validity,
and the prefix-matching classifier accepts strings that are not valid IP
addresses; net.isIP("127.x") is 0 (the validity oracle rejects it), yet
resolveHostname answers the fixed label "local" instead of returning the
input string unchanged. -/
theorem resolve_invalid_ip_counterexample :
    isLocalAddress "127.x" = true ∧
    (resolveHostname (fun _ => false) (fun _ => none) "127.x" 0 []).1 = some "local" ∧
    (resolveHostname (fun _ => false) (fun _ => none) "127.x" 0 []).1 ≠ some "127.x" := by
  decide

/-- C8 (amended): every input string that is neither classified as local
nor a syntactically valid ip address is returned unchanged, with no
lookup performed and the cache left untouched. -/
theorem resolve_invalid_ip_amended (validIP : String → Bool)
    (rev : String → Option (List String)) (ip : String) (now : Nat) (cache : DnsCache)
    (hLocal : isLocalAddress ip = false) (hValid : validIP ip = false) :
    resolveHostname validIP rev ip now cache = (some ip, cache, 0) := by
  simp [resolveHostname, hLocal, hValid]

/-- Witness for the amended C8 at a name-like input. -/
theorem resolve_invalid_ip_amended_witness :
    resolveHostname (fun _ => false) (fun _ => none) "example.com" 0 [] =
      (some "example.com", [], 0) :=
  resolve_invalid_ip_amended (fun _ => false) (fun _ => none) "example.com" 0 [] (by decide) rfl
